import Mathlib

/-
  Verification development for the simple-session library
  (a Session entity plus a SessionManager store exposing RPC handlers).

  The JavaScript source is embedded shallowly:
  - private fields such as _id, _dateCreated, _dateLastUsed, _user,
    _connection, _subscriptions become structure fields without the
    leading underscore;
  - external effects are made explicit parameters: uuidv4() and
    Date.now()/1000 become the id and now arguments of Session.new,
    and the current wall-clock second is the now argument of gc;
  - a JavaScript runtime exception is modelled as Option.none for
    Session-level methods and as Except.error for RPC handlers;
  - connection.send(JSON.stringify(envelope)) is modelled by recording
    the envelope value itself: the push method returns, next to its
    boolean result, the list of envelopes handed to send during the
    call (serialization of the fixed three-field envelope shape is
    injective, so the envelope value determines the serialized text).
-/

set_option autoImplicit false

namespace SimpleSession

/-- Opaque transport handle; the source only calls send on it. -/
structure Connection where
  handle : Nat
deriving DecidableEq, Repr

/-- Opaque user object from the account collaborator. -/
structure User where
  userId : Nat
  permissions : List String
deriving DecidableEq, Repr

def User.getPermissions (u : User) : List String := u.permissions

/-- The push envelope built at source line 106: pushMessage true,
subject, message. JSON.stringify of this object is what send receives. -/
structure PushEnvelope where
  pushMessage : Bool
  subject : String
  message : String
deriving DecidableEq, Repr

/-- The Session entity, source lines 31 to 141. Field names follow the
source fields _id, _dateCreated, _dateLastUsed, _user, _connection and
_subscriptions. The subscriptions field is an Option because the
constructor assigns null to it, never an array. -/
structure Session where
  id : String
  dateCreated : Int
  dateLastUsed : Int
  user : Option User
  connection : Option Connection
  subscriptions : Option (List String)
deriving DecidableEq, Repr

/-- Session constructor, source lines 32 to 48. The id argument stands
for uuidv4() and now for Math.floor of Date.now()/1000; both are
external inputs. Note line 47 assigns null, not an empty array, to
_subscriptions. -/
def Session.new (id : String) (now : Int) : Session :=
  { id := id
    dateCreated := now
    dateLastUsed := now
    user := none
    connection := none
    subscriptions := none }

/-- Source lines 50 to 53. -/
def Session.getIdentifier (s : Session) : String := s.id

/-- Source lines 66 to 69. -/
def Session.getUsedAt (s : Session) : Int := s.dateLastUsed

/-- Source lines 71 to 74; now is the current wall-clock second. -/
def Session.use (s : Session) (now : Int) : Session :=
  { s with dateLastUsed := now }

/-- Source lines 80 to 82. -/
def Session.setConnection (s : Session) (connection : Option Connection) : Session :=
  { s with connection := connection }

/-- Source lines 84 to 86. -/
def Session.setUser (s : Session) (user : Option User) : Session :=
  { s with user := user }

/-- Session.push, source lines 103 to 114. Returns the boolean result
together with the envelopes passed to connection.send during the call:
none when no connection is attached, exactly one otherwise. -/
def Session.push (s : Session) (subject message : String) : Bool × List PushEnvelope :=
  match s.connection with
  | none => (false, [])
  | some _ => (true, [{ pushMessage := true, subject := subject, message := message }])

/-- Session.subscribe, source lines 124 to 131. Reading
this._subscriptions.includes(subject) on the null value assigned by the
constructor raises a TypeError, modelled as none. Array.push appends,
hence the ++ [subject]. -/
def Session.subscribe (s : Session) (subject : String) : Option (Bool × Session) :=
  match s.subscriptions with
  | none => none
  | some subs =>
    if subs.contains subject then
      some (false, s)
    else
      some (true, { s with subscriptions := some (subs ++ [subject]) })

/-- Session.unsubscribe, source lines 133 to 136. Filtering the null
value raises a TypeError, modelled as none; otherwise every occurrence
of the subject is removed and true is returned. -/
def Session.unsubscribe (s : Session) (subject : String) : Option (Bool × Session) :=
  match s.subscriptions with
  | none => none
  | some subs =>
    some (true, { s with subscriptions := some (subs.filter (fun item => item != subject)) })

/-- Session.pushIfSubscribed, source lines 116 to 122. Reading includes
on the null subscriptions raises a TypeError, modelled as none. -/
def Session.pushIfSubscribed (s : Session) (subject message : String) :
    Option (Bool × List PushEnvelope) :=
  match s.subscriptions with
  | none => none
  | some subs =>
    if subs.contains subject then
      some (s.push subject message)
    else
      some (false, [])

/-- Errors surfaced by the RPC handlers: thrown covers the explicit
throw statements of the source, referenceError a strict-mode read of an
undeclared variable, typeError a method call on null. -/
inductive JsError
  | thrown (msg : String)
  | referenceError (name : String)
  | typeError (msg : String)
deriving DecidableEq, Repr

/-- The SessionManager store, source lines 143 to 155: the configured
timeout option (null means the sweeper never runs) and the sessions
array. -/
structure SessionManager where
  timeout : Option Int
  sessions : List Session
deriving DecidableEq, Repr

/-- The loop of _destroySession, source lines 160 to 165: scan for the
first session whose identifier matches, splice it out; none when no
entry matches. -/
def SessionManager.destroySessionLoop (id : String) : List Session → Option (List Session)
  | [] => none
  | s :: rest =>
    if s.getIdentifier = id then
      some rest
    else
      (SessionManager.destroySessionLoop id rest).map (fun r => s :: r)

/-- SessionManager._destroySession, source lines 159 to 167. -/
def SessionManager.destroySessionById (m : SessionManager) (id : String) :
    Bool × SessionManager :=
  match SessionManager.destroySessionLoop id m.sessions with
  | some rest => (true, { m with sessions := rest })
  | none => (false, m)

/-- SessionManager._gc, source lines 169 to 194, one sweep pass at
wall-clock second now. When a timeout is configured the loop pushes
onto sessionsToKeep exactly the sessions with now minus getUsedAt
strictly below the timeout and the store is replaced by that array.
The setTimeout rescheduling is an external effect outside the model. -/
def SessionManager.gc (m : SessionManager) (now : Int) : SessionManager :=
  match m.timeout with
  | none => m
  | some timeout =>
    let sessionsToKeep :=
      m.sessions.foldl
        (fun acc s => if now - s.getUsedAt < timeout then acc ++ [s] else acc) []
    { m with sessions := sessionsToKeep }

/-- SessionManager.getSession, source lines 206 to 213: first session
whose identifier equals the token, else null. -/
def SessionManager.getSession (m : SessionManager) (token : String) : Option Session :=
  m.sessions.find? (fun s => s.getIdentifier == token)

/-- SessionManager.createSession, source lines 221 to 225. The fresh
Session is appended to the store and its identifier returned; id and
now stand for the external uuidv4 and clock inputs of the constructor. -/
def SessionManager.createSession (m : SessionManager) (id : String) (now : Int) :
    String × SessionManager :=
  let newSession := Session.new id now
  (newSession.getIdentifier, { m with sessions := m.sessions ++ [newSession] })

/-- The loop of destroyCurrentSession, source lines 228 to 233: scan for
the first entry that is the very session object attached to the request
(JavaScript identity comparison ===); the session argument is null for
an unauthenticated request and never matches any stored entry then. -/
def SessionManager.destroyCurrentSessionLoop (session : Option Session) :
    List Session → Option (List Session)
  | [] => none
  | s :: rest =>
    if some s = session then
      some rest
    else
      (SessionManager.destroyCurrentSessionLoop session rest).map (fun r => s :: r)

/-- SessionManager.destroyCurrentSession, source lines 227 to 235.
Returns true after splicing the entry out, or throws the string with a
trailing period when the scan finds no match. -/
def SessionManager.destroyCurrentSession (m : SessionManager) (session : Option Session) :
    Except JsError Bool × SessionManager :=
  match SessionManager.destroyCurrentSessionLoop session m.sessions with
  | some rest => (Except.ok true, { m with sessions := rest })
  | none => (Except.error (JsError.thrown "Session not found."), m)

/-- SessionManager.listPermissionsForCurrentSession, source lines 248
to 255. With a null session it throws the string at line 251. On the
success path, line 253 reads the variable user, which is declared
nowhere in this function (contrast state at line 241, which declares
it): under the strict mode of line 1 that read raises a ReferenceError
before getPermissions can ever run, so no list is ever returned. -/
def SessionManager.listPermissionsForCurrentSession (session : Option Session) :
    Except JsError (List String) :=
  match session with
  | none => Except.error (JsError.thrown "no active session")
  | some _ => Except.error (JsError.referenceError "user")

/-- The array branch of SessionManager.subscribe, source lines 265 to
270. Session.subscribe holds no await point, so each call in the loop
runs to completion before the next one starts and Promise.all keeps the
results in input order: the batch is a left-to-right fold threading the
session state, collecting one boolean per topic. A TypeError from any
element (null subscriptions) rejects the whole batch. -/
def Session.subscribeBatch : Session → List String → Option (List Bool × Session)
  | s, [] => some ([], s)
  | s, t :: rest =>
    match s.subscribe t with
    | none => none
    | some rp =>
      match Session.subscribeBatch rp.2 rest with
      | none => none
      | some rsp => some (rp.1 :: rsp.1, rsp.2)

/-- SessionManager.subscribe, source lines 257 to 272. The params value
is either a single topic string (Sum.inl) or an array of topics
(Sum.inr), mirroring the typeof check at line 261. -/
def SessionManager.subscribe (session : Option Session)
    (params : Sum String (List String)) :
    Except JsError (Sum Bool (List Bool) × Session) :=
  match session with
  | none => Except.error (JsError.thrown "no active session")
  | some s =>
    match params with
    | Sum.inl topic =>
      match s.subscribe topic with
      | none => Except.error (JsError.typeError "this._subscriptions is null")
      | some rp => Except.ok (Sum.inl rp.1, rp.2)
    | Sum.inr topics =>
      match Session.subscribeBatch s topics with
      | none => Except.error (JsError.typeError "this._subscriptions is null")
      | some rp => Except.ok (Sum.inr rp.1, rp.2)

/-- SessionManager.destroySession, the management/destroy handler,
source lines 301 to 307: delegate to _destroySession on the supplied
id, throw the string without a trailing period when it reports false. -/
def SessionManager.destroySession (m : SessionManager) (params : String) :
    Except JsError Bool × SessionManager :=
  let r := m.destroySessionById params
  if r.1 then
    (Except.ok true, r.2)
  else
    (Except.error (JsError.thrown "Session not found"), r.2)

/-- Claim C1: the claim asks that the subscription set of a freshly
constructed Session be the empty set, never an absent value. The
constructor at source line 47 assigns null instead, and no operation of
the source ever replaces the null by an array, so the field is none and
in particular differs from the empty list. -/
theorem session_new_subscriptions_null (id : String) (now : Int) :
    (Session.new id now).subscriptions = none ∧
      (Session.new id now).subscriptions ≠ some [] := by
  exact ⟨rfl, by simp [Session.new]⟩

/-- Claim C2: the claim asks that subscribe on a freshly created Session
return true for the first call on any topic. Instead the call reads
includes on the null subscriptions field and raises a TypeError, here
the none outcome, for every fresh session and every topic. -/
theorem subscribe_fresh_session_typeerror (id : String) (now : Int) (topic : String) :
    (Session.new id now).subscribe topic = none := rfl

/-- Claim C3: the claim asks that unsubscribe return true on every
Session, a freshly created one included. On a fresh session the call
filters the null subscriptions field and raises a TypeError, here the
none outcome, instead of returning true. -/
theorem unsubscribe_fresh_session_typeerror (id : String) (now : Int) (topic : String) :
    (Session.new id now).unsubscribe topic = none := rfl

/-- Claim C4: the claim asks that the permissions handler fail only on a
null session (with the unauthenticated error) and otherwise return a
list of permission strings. The null branch does throw the
unauthenticated string, but the success path reads the undeclared
variable user at source line 253 and raises a ReferenceError for every
session, so a list is never returned. -/
theorem listPermissions_referenceError :
    SessionManager.listPermissionsForCurrentSession none
        = Except.error (JsError.thrown "no active session") ∧
      ∀ s : Session, SessionManager.listPermissionsForCurrentSession (some s)
        = Except.error (JsError.referenceError "user") := by
  exact ⟨rfl, fun _ => rfl⟩

/-- Claim C5: push returns false and performs no send when no connection
is attached, and with a connection attached it returns true and hands
send exactly one envelope with pushMessage true, the topic as subject
and the message as message. -/
theorem push_spec (s : Session) (subject message : String) :
    (s.connection = none → s.push subject message = (false, [])) ∧
      (∀ c : Connection, s.connection = some c →
        s.push subject message
          = (true, [{ pushMessage := true, subject := subject, message := message }])) := by
  constructor
  · intro h
    simp [Session.push, h]
  · intro c h
    simp [Session.push, h]

/-- Witness for push_spec at concrete sessions: a fresh session has no
connection and push returns false with no delivery; after attaching a
connection push returns true with exactly one envelope. -/
theorem push_spec_witness :
    (Session.new "id0" 0).push "topic" "msg" = (false, []) ∧
      ((Session.new "id0" 0).setConnection (some { handle := 7 })).push "topic" "msg"
        = (true, [{ pushMessage := true, subject := "topic", message := "msg" }]) := by
  refine ⟨(push_spec (Session.new "id0" 0) "topic" "msg").1 rfl, ?_⟩
  exact (push_spec ((Session.new "id0" 0).setConnection (some { handle := 7 }))
    "topic" "msg").2 { handle := 7 } rfl

/-- Claim C6: the claim asks that pushIfSubscribed return false for any
session whose subscription set lacks the topic, even with a connection
present. On a fresh session with a connection attached the call reads
includes on the null subscriptions field and raises a TypeError, here
the none outcome, instead of returning false. -/
theorem pushIfSubscribed_fresh_session_typeerror (id : String) (now : Int)
    (topic message : String) (c : Connection) :
    ((Session.new id now).setConnection (some c)).pushIfSubscribed topic message
      = none := rfl

/-- The sessionsToKeep loop of the sweep is a filter: folding the
conditional push over the list appends, to the accumulator, exactly the
sessions whose idle time is below the timeout, in order. -/
theorem gc_keep_loop_eq_filter (now timeout : Int) (l acc : List Session) :
    l.foldl (fun a s => if now - s.getUsedAt < timeout then a ++ [s] else a) acc
      = acc ++ l.filter (fun s => decide (now - s.getUsedAt < timeout)) := by
  induction l generalizing acc with
  | nil => simp
  | cons s rest ih =>
    by_cases h : now - s.getUsedAt < timeout
    · simp [List.foldl_cons, List.filter_cons, h, ih]
    · simp [List.foldl_cons, List.filter_cons, h, ih]

/-- Claim C7: with a configured timeout, one sweep pass at wall-clock
second now retains exactly the sessions with now minus dateLastUsed
strictly below the timeout and removes all others; in particular a
session last used at second t0 is still present after a sweep at
t0 + timeout - 1 and gone after a sweep at t0 + timeout + 1. -/
theorem gc_spec (m : SessionManager) (timeout : Int)
    (h : m.timeout = some timeout) (now : Int) (s : Session) :
    (s ∈ (m.gc now).sessions ↔ s ∈ m.sessions ∧ now - s.dateLastUsed < timeout) ∧
      (∀ t0 : Int, s.dateLastUsed = t0 → s ∈ m.sessions →
        s ∈ (m.gc (t0 + timeout - 1)).sessions ∧
          s ∉ (m.gc (t0 + timeout + 1)).sessions) := by
  have hmem : ∀ t : Int, s ∈ (m.gc t).sessions ↔
      s ∈ m.sessions ∧ t - s.dateLastUsed < timeout := by
    intro t
    simp only [SessionManager.gc, h]
    rw [gc_keep_loop_eq_filter]
    simp [List.mem_filter, Session.getUsedAt]
  refine ⟨hmem now, ?_⟩
  intro t0 ht0 hs
  constructor
  · exact (hmem (t0 + timeout - 1)).2 ⟨hs, by omega⟩
  · intro hcontra
    have := ((hmem (t0 + timeout + 1)).1 hcontra).2
    omega

/-- Witness for gc_spec at a concrete store: one session last used at
second 100 under a timeout of 10 survives a sweep at second 109 and is
removed by a sweep at second 111. -/
theorem gc_spec_witness :
    Session.new "a" 100
        ∈ ((⟨some 10, [Session.new "a" 100]⟩ : SessionManager).gc (100 + 10 - 1)).sessions ∧
      Session.new "a" 100
        ∉ ((⟨some 10, [Session.new "a" 100]⟩ : SessionManager).gc (100 + 10 + 1)).sessions := by
  exact (gc_spec (⟨some 10, [Session.new "a" 100]⟩ : SessionManager) 10 rfl 0
    (Session.new "a" 100)).2 100 rfl (by simp)

/-- With a null current session the identity scan compares every stored
session against null and never matches, because a stored entry is a
Session object, never null. -/
theorem destroyCurrentSessionLoop_none (l : List Session) :
    SessionManager.destroyCurrentSessionLoop none l = none := by
  induction l with
  | nil => rfl
  | cons s rest ih =>
    simp [SessionManager.destroyCurrentSessionLoop, ih]

/-- Claim C10: invoking destroyCurrentSession with a null session makes
the identity scan find no match, so the handler throws the not-found
string with a trailing period (not the unauthenticated error, which the
handler never checks for) and the store is left unchanged. -/
theorem destroyCurrentSession_null_spec (m : SessionManager) :
    m.destroyCurrentSession none
      = (Except.error (JsError.thrown "Session not found."), m) := by
  simp [SessionManager.destroyCurrentSession, destroyCurrentSessionLoop_none]

/-- The scan of _destroySession reports no match exactly when no stored
session carries the requested identifier. -/
theorem destroySessionLoop_eq_none_iff (id : String) (l : List Session) :
    SessionManager.destroySessionLoop id l = none ↔ ∀ x ∈ l, x.id ≠ id := by
  induction l with
  | nil => simp [SessionManager.destroySessionLoop]
  | cons s rest ih =>
    simp only [SessionManager.destroySessionLoop, Session.getIdentifier]
    by_cases h : s.id = id
    · simp [h]
    · simp [h, ih]

/-- When the identifiers in the store are pairwise distinct and the scan
of _destroySession splices an entry out, the resulting list holds
exactly the stored sessions whose identifier differs from the requested
one. -/
theorem destroySessionLoop_some_mem (id : String) (l r : List Session)
    (hnodup : (l.map Session.id).Nodup)
    (hr : SessionManager.destroySessionLoop id l = some r) :
    ∀ x : Session, x ∈ r ↔ x ∈ l ∧ x.id ≠ id := by
  induction l generalizing r with
  | nil => simp [SessionManager.destroySessionLoop] at hr
  | cons s rest ih =>
    simp only [SessionManager.destroySessionLoop, Session.getIdentifier] at hr
    simp only [List.map_cons, List.nodup_cons] at hnodup
    by_cases h : s.id = id
    · rw [if_pos h] at hr
      obtain rfl : rest = r := by exact Option.some.inj hr
      intro x
      constructor
      · intro hx
        refine ⟨List.mem_cons_of_mem _ hx, ?_⟩
        intro hxid
        apply hnodup.1
        rw [h, ← hxid]
        exact List.mem_map_of_mem Session.id hx
      · rintro ⟨hx, hxid⟩
        rcases List.mem_cons.1 hx with hx | hx
        · exact absurd (hx ▸ h) hxid
        · exact hx
    · rw [if_neg h] at hr
      obtain ⟨r2, hr2, rfl⟩ := Option.map_eq_some'.1 hr
      intro x
      have hm := ih r2 hnodup.2 hr2 x
      constructor
      · intro hx
        rcases List.mem_cons.1 hx with rfl | hx
        · exact ⟨List.mem_cons_self _ _, h⟩
        · obtain ⟨hx1, hx2⟩ := hm.1 hx
          exact ⟨List.mem_cons_of_mem _ hx1, hx2⟩
      · rintro ⟨hx, hxid⟩
        rcases List.mem_cons.1 hx with rfl | hx
        · exact List.mem_cons_self _ _
        · exact List.mem_cons_of_mem _ (hm.2 ⟨hx, hxid⟩)

/-- getSession finds nothing exactly when no stored session carries the
requested token as identifier. -/
theorem getSession_eq_none_iff (m : SessionManager) (token : String) :
    m.getSession token = none ↔ ∀ x ∈ m.sessions, x.id ≠ token := by
  simp [SessionManager.getSession, List.find?_eq_none, Session.getIdentifier]

/-- Claim C8: assuming the stored identifiers are pairwise distinct (the
store invariant), the management/destroy handler throws the not-found
string and leaves the store untouched when the id matches no live
session; when the id matches a live session it returns true, the
matching session alone is removed (the surviving entries are exactly
the stored sessions with a different identifier, and the timeout
configuration is untouched), and a subsequent getSession on that id
finds nothing. -/
theorem destroySession_spec (m : SessionManager) (id : String)
    (hnodup : (m.sessions.map Session.id).Nodup) :
    (m.getSession id = none →
      m.destroySession id = (Except.error (JsError.thrown "Session not found"), m)) ∧
      (m.getSession id ≠ none →
        (m.destroySession id).1 = Except.ok true ∧
          (m.destroySession id).2.getSession id = none ∧
          (m.destroySession id).2.timeout = m.timeout ∧
          ∀ x : Session, x ∈ (m.destroySession id).2.sessions ↔ x ∈ m.sessions ∧ x.id ≠ id) := by
  constructor
  · intro hnone
    have hloop : SessionManager.destroySessionLoop id m.sessions = none :=
      (destroySessionLoop_eq_none_iff id m.sessions).2
        ((getSession_eq_none_iff m id).1 hnone)
    simp [SessionManager.destroySession, SessionManager.destroySessionById, hloop]
  · intro hsome
    obtain ⟨r, hr⟩ : ∃ r, SessionManager.destroySessionLoop id m.sessions = some r := by
      cases hl : SessionManager.destroySessionLoop id m.sessions with
      | none =>
        exact absurd ((getSession_eq_none_iff m id).2
          ((destroySessionLoop_eq_none_iff id m.sessions).1 hl)) hsome
      | some r => exact ⟨r, rfl⟩
    have hmem := destroySessionLoop_some_mem id m.sessions r hnodup hr
    have hres : m.destroySession id = (Except.ok true, { m with sessions := r }) := by
      simp [SessionManager.destroySession, SessionManager.destroySessionById, hr]
    refine ⟨by rw [hres], ?_, by rw [hres], ?_⟩
    · rw [hres]
      exact (getSession_eq_none_iff _ id).2 (fun x hx => ((hmem x).1 hx).2)
    · intro x
      rw [hres]
      exact hmem x

/-- Witness for destroySession_spec at a concrete store with one
session of identifier a: destroying id b throws and leaves the store as
it was, destroying id a returns true and a lookup of a then fails. -/
theorem destroySession_spec_witness :
    (SessionManager.destroySession ⟨none, [Session.new "a" 0]⟩ "b"
        = (Except.error (JsError.thrown "Session not found"),
            (⟨none, [Session.new "a" 0]⟩ : SessionManager))) ∧
      (SessionManager.destroySession ⟨none, [Session.new "a" 0]⟩ "a").1 = Except.ok true ∧
      (SessionManager.destroySession ⟨none, [Session.new "a" 0]⟩ "a").2.getSession "a"
        = none := by
  have h1 := (destroySession_spec ⟨none, [Session.new "a" 0]⟩ "b" (by decide)).1 (by decide)
  have h2 := (destroySession_spec ⟨none, [Session.new "a" 0]⟩ "a" (by decide)).2 (by decide)
  exact ⟨h1, h2.1, h2.2.1⟩

/-- Threading a batch of topics through subscribe from a session whose
subscription list is initialized: the batch succeeds, yields one
boolean per topic in input order, the topic at position i is reported
as newly added exactly when it occurs neither in the initial list nor
among the earlier topics of the batch, and the final subscription list
holds exactly the initial elements and the batch topics. -/
theorem subscribeBatch_spec_aux (topics : List String) (s : Session) (l : List String)
    (h : s.subscriptions = some l) :
    ∃ results fin,
      Session.subscribeBatch s topics = some (results, fin) ∧
        results.length = topics.length ∧
        (∃ l2, fin.subscriptions = some l2 ∧ ∀ x : String, x ∈ l2 ↔ x ∈ l ++ topics) ∧
        (∀ i : Nat, ∀ hi : i < topics.length, ∀ hr : i < results.length,
          (results.get ⟨i, hr⟩ = true ↔ topics.get ⟨i, hi⟩ ∉ l ++ topics.take i)) := by
  induction topics generalizing s l with
  | nil =>
    refine ⟨[], s, by simp [Session.subscribeBatch], rfl, ⟨l, h, by simp⟩, ?_⟩
    intro i hi
    exact absurd hi (by simp)
  | cons t rest ih =>
    by_cases hct : l.contains t
    · have htmem : t ∈ l := by simpa using hct
      have hsub : s.subscribe t = some (false, s) := by
        simp [Session.subscribe, h, hct, htmem]
      obtain ⟨results, fin, hbatch, hlen, ⟨l2, hl2, hl2mem⟩, hidx⟩ := ih s l h
      refine ⟨false :: results, fin, ?_, by simp [hlen], ⟨l2, hl2, ?_⟩, ?_⟩
      · simp [Session.subscribeBatch, hsub, hbatch]
      · intro x
        rw [hl2mem x]
        simp only [List.mem_append, List.mem_cons]
        constructor
        · rintro (hx | hx)
          · exact Or.inl hx
          · exact Or.inr (Or.inr hx)
        · rintro (hx | hx | hx)
          · exact Or.inl hx
          · exact Or.inl (hx ▸ htmem)
          · exact Or.inr hx
      · intro i hi hr
        cases i with
        | zero => simp [htmem]
        | succ n =>
          have hn : n < rest.length := by simpa using hi
          have hrn : n < results.length := by simpa using hr
          have hprev := hidx n hn hrn
          have hgs : (false :: results).get ⟨n + 1, hr⟩ = results.get ⟨n, hrn⟩ := rfl
          have hgt : (t :: rest).get ⟨n + 1, hi⟩ = rest.get ⟨n, hn⟩ := rfl
          have hiff : (rest.get ⟨n, hn⟩ ∈ l ++ (t :: rest).take (n + 1))
              ↔ rest.get ⟨n, hn⟩ ∈ l ++ rest.take n := by
            simp only [List.take_succ_cons, List.mem_append, List.mem_cons]
            constructor
            · rintro (hx | hx | hx)
              · exact Or.inl hx
              · exact Or.inl (hx ▸ htmem)
              · exact Or.inr hx
            · rintro (hx | hx)
              · exact Or.inl hx
              · exact Or.inr (Or.inr hx)
          rw [hgs, hgt, hprev]
          exact not_congr (Iff.symm hiff)
    · have htnot : t ∉ l := by simpa using hct
      have hsub : s.subscribe t
          = some (true, { s with subscriptions := some (l ++ [t]) }) := by
        simp [Session.subscribe, h, hct, htnot]
      obtain ⟨results, fin, hbatch, hlen, ⟨l2, hl2, hl2mem⟩, hidx⟩ :=
        ih { s with subscriptions := some (l ++ [t]) } (l ++ [t]) rfl
      refine ⟨true :: results, fin, ?_, by simp [hlen], ⟨l2, hl2, ?_⟩, ?_⟩
      · simp [Session.subscribeBatch, hsub, hbatch]
      · intro x
        rw [hl2mem x]
        simp only [List.mem_append, List.mem_cons, List.mem_singleton]
        tauto
      · intro i hi hr
        cases i with
        | zero => simp [htnot]
        | succ n =>
          have hn : n < rest.length := by simpa using hi
          have hrn : n < results.length := by simpa using hr
          have hprev := hidx n hn hrn
          have hgs : (true :: results).get ⟨n + 1, hr⟩ = results.get ⟨n, hrn⟩ := rfl
          have hgt : (t :: rest).get ⟨n + 1, hi⟩ = rest.get ⟨n, hn⟩ := rfl
          have hiff : (rest.get ⟨n, hn⟩ ∈ l ++ (t :: rest).take (n + 1))
              ↔ rest.get ⟨n, hn⟩ ∈ (l ++ [t]) ++ rest.take n := by
            simp only [List.take_succ_cons, List.mem_append, List.mem_cons,
              List.mem_singleton]
            tauto
          rw [hgs, hgt, hprev]
          exact not_congr (Iff.symm hiff)

/-- Claim C9: on a session whose subscription list is initialized, the
array branch of the subscribe handler succeeds and returns one boolean
per topic in input order, where position i reports a new addition
exactly when that topic occurs neither in the prior subscription list
nor earlier in the batch; in particular from an empty subscription set
the batch a, b, a yields true, true, false, the second a observing the
effect of the first. -/
theorem subscribe_rpc_batch_spec (s : Session) (l : List String) (topics : List String)
    (h : s.subscriptions = some l) :
    (∃ results fin,
      SessionManager.subscribe (some s) (Sum.inr topics)
          = Except.ok (Sum.inr results, fin) ∧
        results.length = topics.length ∧
        ∀ i : Nat, ∀ hi : i < topics.length, ∀ hr : i < results.length,
          (results.get ⟨i, hr⟩ = true ↔ topics.get ⟨i, hi⟩ ∉ l ++ topics.take i)) ∧
      (l = [] → topics = ["a", "b", "a"] →
        ∃ fin, SessionManager.subscribe (some s) (Sum.inr topics)
          = Except.ok (Sum.inr [true, true, false], fin)) := by
  constructor
  · obtain ⟨results, fin, hbatch, hlen, _, hidx⟩ := subscribeBatch_spec_aux topics s l h
    exact ⟨results, fin, by simp [SessionManager.subscribe, hbatch], hlen, hidx⟩
  · rintro rfl rfl
    have h1 : s.subscribe "a" = some (true, { s with subscriptions := some ["a"] }) := by
      simp [Session.subscribe, h]
    have h2 : ({ s with subscriptions := some ["a"] } : Session).subscribe "b"
        = some (true, { s with subscriptions := some ["a", "b"] }) := by
      simp [Session.subscribe]
    have h3 : ({ s with subscriptions := some ["a", "b"] } : Session).subscribe "a"
        = some (false, { s with subscriptions := some ["a", "b"] }) := by
      simp [Session.subscribe]
    refine ⟨{ s with subscriptions := some ["a", "b"] }, ?_⟩
    simp [SessionManager.subscribe, Session.subscribeBatch, h1, h2, h3]

/-- Witness for subscribe_rpc_batch_spec: a session holding the empty
subscription list, given the batch a, b, a, receives true, true, false
in order. -/
theorem subscribe_rpc_batch_spec_witness :
    ∃ fin, SessionManager.subscribe
        (some { Session.new "w" 0 with subscriptions := some [] })
        (Sum.inr ["a", "b", "a"])
      = Except.ok (Sum.inr [true, true, false], fin) := by
  exact (subscribe_rpc_batch_spec { Session.new "w" 0 with subscriptions := some [] }
    [] ["a", "b", "a"] rfl).2 rfl rfl

end SimpleSession
